import Mathlib

/-
Verification of doc/scripts/gen_mon_command_api.py.

The script turns a JSON manifest of command descriptions into reST
documentation.  This file embeds its data model and pipeline:

  * Flags            (source lines 9-38): bitmask decoded to flag names;
  * CmdParam         (source lines 41-125): one parameter descriptor;
  * CmdCommand       (source lines 128-152): one command record;
  * mk_sigs          (source lines 191-198): filter hidden commands, sort by
    signature, and hand the resulting sequence to the template renderer.

Python-level operations that the script relies on (string comparison,
`str.split`, substring containment via `in`, stable `sorted`) are embedded
as executable functions on `List Char` / `String` below.  Fallible
constructions (the `assert who == None` in CmdParam.__init__, and dict
lookups that may raise KeyError) are embedded with `Option`.
-/

/-- Boolean lexicographic comparison of lists given a boolean comparison of
elements: the Python `<` on lists (and, at element type `Char`, on strings).
The empty list precedes any non-empty list; otherwise the first strictly
ordered pair of heads decides. -/
def lexLt (ltb : α → α → Bool) : List α → List α → Bool
  | [], [] => false
  | [], _ :: _ => true
  | _ :: _, [] => false
  | a :: as, b :: bs => if ltb a b then true else if ltb b a then false else lexLt ltb as bs

/-- Boolean comparison of characters by code point, as Python compares the
characters of a string. -/
def charLtB (a b : Char) : Bool := decide (a < b)

/-- the Python `<` on strings: lexicographic by code point. -/
def strLt (a b : String) : Bool := lexLt charLtB a.toList b.toList

/-- One step of the stable insertion producing the Python `sorted` order:
`a` is placed after every element strictly before it and before the first
element not strictly before it, so equal elements keep their original
relative order. `ltb b a = true` means `b` comes strictly before `a`. -/
def pyInsert (ltb : α → α → Bool) (a : α) : List α → List α
  | [] => [a]
  | b :: bs => if ltb b a then b :: pyInsert ltb a bs else a :: b :: bs

/-- the Python stable `sorted` with strict comparison `ltb` (ascending with
respect to `ltb`, stable on ties). -/
def pySorted (ltb : α → α → Bool) : List α → List α
  | [] => []
  | a :: as => pyInsert ltb a (pySorted ltb as)

/-- Whether the first list is a prefix of the second (over characters). -/
def listIsPre : List Char → List Char → Bool
  | [], _ => true
  | _ :: _, [] => false
  | a :: as, b :: bs => a == b && listIsPre as bs

/-- Whether `sub` occurs as a contiguous run inside the second list. -/
def listIsSub (sub : List Char) : List Char → Bool
  | [] => sub.isEmpty
  | c :: cs => listIsPre sub (c :: cs) || listIsSub sub cs

/-- the Python `sub in s` on strings: substring containment. -/
def strContains (s sub : String) : Bool := listIsSub sub.toList s.toList

/-- the Python `str.split` with separator character `|` over a character
list: cut at every occurrence of the separator.  `[]` yields `[[]]`. -/
def splitOnBar : List Char → List (List Char)
  | [] => [[]]
  | c :: cs =>
    match splitOnBar cs with
    | [] => [[c]]
    | g :: gs => if c == '|' then [] :: g :: gs else (c :: g) :: gs

/-- `x.split('|') if x else []` from CmdParam.__init__ (source lines
83-84): an absent or empty attribute gives the empty list, otherwise a
Python split on the bar character. -/
def splitBar : Option String → List String
  | none => []
  | some s => if s = "" then [] else (splitOnBar s.toList).map fun g => String.mk g

/-- Flags (source lines 9-38) wraps the integer bitmask `fs` of a command. -/
structure Flags where
  fs : Nat
deriving DecidableEq

/-- The fixed enumeration of (bit, name) pairs, source lines 10-24:
NOFORWARD = 1, OBSOLETE = 2, DEPRECATED = 4, MGR = 8, POLL = 16,
HIDDEN = 32. -/
def Flags.VALS : List (Nat × String) :=
  [(1, "no_forward"), (2, "obsolete"), (4, "deprecated"), (8, "mgr"),
   (16, "poll"), (32, "hidden")]

/-- The names whose bit is fully contained in the mask, in enumeration
order: `[VALS[k] for k in VALS if fs & k == k]`.  The source collects them
into a Python set before sorting; the names of VALS are pairwise distinct,
so the list is an exact embedding of that set. -/
def Flags.names (f : Flags) : List String :=
  (Flags.VALS.filter fun kv => f.fs &&& kv.1 == kv.1).map fun kv => kv.2

/-- Flags.__str__ (source lines 32-35): the sorted, comma-joined names of
the set bits. -/
def Flags.str (f : Flags) : String :=
  String.intercalate ", " (pySorted strLt (Flags.names f))

/-- Flags.__contains__ (source lines 29-30): substring containment of the
query in the rendered text. -/
def Flags.contains (f : Flags) (other : String) : Bool :=
  strContains (Flags.str f) other

/-- The raw keyword arguments accepted by CmdParam.__init__ (source line
76): `type` and `name` are mandatory in every manifest record, the rest
default to absent (`None` in the source, `none` here). -/
structure RawParam where
  type : String
  name : String
  who : Option String := none
  n : Option String := none
  req : Option String := none
  range : Option String := none
  strings : Option String := none
  goodchars : Option String := none
deriving DecidableEq

/-- The state of a constructed CmdParam object (source lines 78-85). -/
structure CmdParam where
  type : String
  name : String
  who : Option String
  n : Bool
  req : Bool
  range : List String
  strings : List String
  goodchars : Option String
deriving DecidableEq

/-- The CmdParam.bash_example class table (source lines 59-74), keyed by
type tag.  A tag outside the table is a Python KeyError, embedded as
`none`. -/
def CmdParam.bash_example : String → Option String
  | "CephInt" => some "1"
  | "CephString" => some "string"
  | "CephChoices" => some "choice"
  | "CephPgid" => some "0"
  | "CephOsdName" => some "osd.0"
  | "CephPoolname" => some "poolname"
  | "CephObjectname" => some "objectname"
  | "CephUUID" => some "uuid"
  | "CephEntityAddr" => some "entityaddr"
  | "CephIPAddr" => some "0.0.0.0"
  | "CephName" => some "name"
  | "CephBool" => some "true"
  | "CephFloat" => some "0.0"
  | "CephFilepath" => some "/path/to/file"
  | _ => none

/-- CmdParam.__init__ (source lines 76-87): `n` is the repeatable marker
(`n == 'N'`), `req` is required unless the string "false" was passed,
`range` and `strings` are bar-split, and `assert who == None` makes
construction fail for any present `who` attribute. -/
def CmdParam.init (r : RawParam) : Option CmdParam :=
  if r.who ≠ none then none
  else some
    { type := r.type, name := r.name, who := r.who,
      n := r.n == some "N", req := r.req != some "false",
      range := splitBar r.range, strings := splitBar r.strings,
      goodchars := r.goodchars }

/-- CmdParam.mk_example_value (source lines 105-110). -/
def CmdParam.mk_example_value (p : CmdParam) : Option String :=
  if p.type = "CephChoices" ∧ p.strings ≠ [] then p.strings.head?
  else if p.range ≠ [] then p.range.head?
  else CmdParam.bash_example p.type

/-- CmdParam.mk_bash_example (source lines 112-125).  The source computes
`val = self.mk_example_value()` first, so a KeyError there aborts every
branch; branches that look the type up in the class table again can fail
on their own. -/
def CmdParam.mk_bash_example (p : CmdParam) (simple : Bool) : Option String :=
  (p.mk_example_value).bind fun val =>
    if p.type = "CephBool" then some ("--" ++ p.name)
    else if simple then
      if p.type = "CephChoices" ∧ p.strings ≠ [] then some val
      else if p.type = "CephString" ∧ p.name ≠ "who" then some ("my_" ++ p.name)
      else CmdParam.bash_example p.type
    else some ("--" ++ p.name ++ "=" ++ val)

/-- One entry of a raw `sig` list: a literal token (a Python `str`) or a
parameter descriptor (a dict). -/
inductive SigItem where
  | lit (s : String)
  | par (p : RawParam)
deriving DecidableEq

/-- The literal string tokens of a signature entry. -/
def SigItem.litOf : SigItem → Option String
  | .lit s => some s
  | .par _ => none

/-- The parameter descriptor of a signature entry. -/
def SigItem.paramOf : SigItem → Option RawParam
  | .lit _ => none
  | .par p => some p

/-- The raw keyword arguments accepted by CmdCommand.__init__ (source line
129). -/
structure RawCommand where
  sig : List SigItem
  desc : String
  module : Option String := none
  perm : Option String := none
  flags : Nat := 0
  poll : Option String := none
deriving DecidableEq

/-- The state of a constructed CmdCommand object (source lines 130-137). -/
structure CmdCommand where
  sig : List String
  params : List CmdParam
  help : String
  module : Option String
  perm : Option String
  flags : Flags
  needs_overload : Bool
deriving DecidableEq

/-- The sort key of the parameter sort: the Python key `p.req`, a boolean, with
False < True. -/
def reqKey (p : CmdParam) : Nat := if p.req then 1 else 0

/-- The comparison realising `sorted(..., key=lambda p: p.req,
reverse=True)` (source lines 131-132): `a` comes strictly before `b`
exactly when the key of `a` is strictly larger, and the sort is stable. -/
def reqLt (a b : CmdParam) : Bool := decide (reqKey b < reqKey a)

/-- CmdCommand.__init__ (source lines 129-137): the literal tokens of
`sig` are kept in order, the descriptor entries are constructed into
CmdParams (any assertion failure propagates) and stably sorted required
first. -/
def CmdCommand.init (r : RawCommand) : Option CmdCommand :=
  match (r.sig.filterMap SigItem.paramOf).mapM CmdParam.init with
  | none => none
  | some ps => some
    { sig := r.sig.filterMap SigItem.litOf,
      params := pySorted reqLt ps,
      help := r.desc, module := r.module, perm := r.perm,
      flags := ⟨r.flags⟩, needs_overload := false }

/-- CmdCommand.is_reasonably_simple (source lines 142-147). -/
def CmdCommand.is_reasonably_simple (c : CmdCommand) : Bool :=
  if c.params.length > 3 then false
  else if c.params.any fun p => p.n then false
  else true

/-- The comparison realising `sorted(sigs, key=lambda f: f.sig)` (source
line 194): lexicographic on the literal-token lists, elementwise by
Python string comparison. -/
def cmdSigLt (a b : CmdCommand) : Bool := lexLt strLt a.sig b.sig

/-- mk_sigs (source lines 191-198) up to the renderer boundary: construct
one CmdCommand per manifest entry, drop those whose Flag Set reports
"hidden", sort by signature, and return exactly the command sequence that
is passed to `Template.render` (which walks it in order). -/
def mk_sigs (manifest : List RawCommand) : Option (List CmdCommand) :=
  match manifest.mapM CmdCommand.init with
  | none => none
  | some sigs =>
    some (pySorted cmdSigLt (sigs.filter fun s => !(Flags.contains s.flags "hidden")))

/-- The name list selected by Flags.names expressed by the six bit tests,
used to settle the substring-membership questions by finite case
analysis. -/
def namesOfBits (b1 b2 b3 b4 b5 b6 : Bool) : List String :=
  (if b1 then ["no_forward"] else []) ++ (if b2 then ["obsolete"] else []) ++
  (if b3 then ["deprecated"] else []) ++ (if b4 then ["mgr"] else []) ++
  (if b5 then ["poll"] else []) ++ (if b6 then ["hidden"] else [])

/-- A CephBool parameter fixture. -/
def wBoolParam : CmdParam :=
  { type := "CephBool", name := "force", who := none, n := false, req := true,
    range := [], strings := [], goodchars := none }

/-- The parameter constructed from the concrete choice descriptor
`{type: "CephChoices", name: "format", strings: "json|plain"}`. -/
def wChoiceParam : CmdParam :=
  { type := "CephChoices", name := "format", who := none, n := false, req := true,
    range := [], strings := ["json", "plain"], goodchars := none }

/-- An integer parameter fixture carrying a range. -/
def wRangeParam : CmdParam :=
  { type := "CephInt", name := "k", who := none, n := false, req := true,
    range := ["5", "9"], strings := [], goodchars := none }

/-- An integer parameter fixture with no range and no value set. -/
def wIntParam : CmdParam :=
  { type := "CephInt", name := "m", who := none, n := false, req := true,
    range := [], strings := [], goodchars := none }

/-- An optional string parameter fixture (req explicitly "false"). -/
def wOptParam : CmdParam :=
  { type := "CephString", name := "a", who := none, n := false, req := false,
    range := [], strings := [], goodchars := none }

/-- A required integer parameter fixture. -/
def wReqParam : CmdParam :=
  { type := "CephInt", name := "b", who := none, n := false, req := true,
    range := [], strings := [], goodchars := none }

/-- A raw command fixture whose signature lists the optional parameter
before the required one. -/
def wMixedRaw : RawCommand :=
  { sig := [.lit "osd", .par { type := "CephString", name := "a", req := some "false" },
            .par { type := "CephInt", name := "b" }], desc := "d" }

/-- The command constructed from the mixed fixture: required parameter
first. -/
def wMixedCmd : CmdCommand :=
  { sig := ["osd"], params := [wReqParam, wOptParam], help := "d", module := none,
    perm := none, flags := ⟨0⟩, needs_overload := false }

/-- A raw command carrying the hidden and deprecated bits (mask 36). -/
def wHiddenRaw : RawCommand :=
  { sig := [.lit "osd", .lit "stop"], desc := "h", flags := 36 }

/-- A raw command with no flags. -/
def wPlainRaw : RawCommand := { sig := [.lit "mon", .lit "compact"], desc := "d" }

/-- The command constructed from the plain fixture. -/
def wPlainCmd : CmdCommand :=
  { sig := ["mon", "compact"], params := [], help := "d", module := none,
    perm := none, flags := ⟨0⟩, needs_overload := false }

/-- A raw command with signature token "a". -/
def wRawA : RawCommand := { sig := [.lit "a"], desc := "z" }

/-- A raw command with signature token "b". -/
def wRawB : RawCommand := { sig := [.lit "b"], desc := "y" }

/-- The command constructed from `wRawA`. -/
def wCmdA : CmdCommand :=
  { sig := ["a"], params := [], help := "z", module := none, perm := none,
    flags := ⟨0⟩, needs_overload := false }

/-- The command constructed from `wRawB`. -/
def wCmdB : CmdCommand :=
  { sig := ["b"], params := [], help := "y", module := none, perm := none,
    flags := ⟨0⟩, needs_overload := false }

theorem charLtB_asymm (a b : Char) (h : charLtB a b = true) : charLtB b a = false := by
  simp only [charLtB, decide_eq_true_eq, decide_eq_false_iff_not] at *
  exact lt_asymm h

theorem charLtB_antisymm (a b : Char) (h1 : charLtB a b = false) (h2 : charLtB b a = false) :
    a = b := by
  simp only [charLtB, decide_eq_false_iff_not] at *
  exact le_antisymm (not_lt.mp h2) (not_lt.mp h1)

theorem charLtB_cross (a b c : Char) (h1 : charLtB c a = true) (h2 : charLtB b a = false) :
    charLtB c b = true := by
  simp only [charLtB, decide_eq_true_eq, decide_eq_false_iff_not] at *
  exact lt_of_lt_of_le h1 (not_lt.mp h2)

theorem lexLt_asymm {α : Type} (ltb : α → α → Bool)
    (asym : ∀ a b, ltb a b = true → ltb b a = false) :
    ∀ x y, lexLt ltb x y = true → lexLt ltb y x = false
  | [], [], _ => rfl
  | [], _ :: _, _ => rfl
  | a :: as, b :: bs, h => by
    simp only [lexLt] at h ⊢
    cases hab : ltb a b with
    | true => simp [hab, asym a b hab]
    | false =>
      cases hba : ltb b a with
      | true => simp [hab, hba] at h
      | false =>
        simp only [hab, hba, if_false, Bool.false_eq_true] at h ⊢
        simp [lexLt_asymm ltb asym as bs h]

theorem lexLt_antisymm {α : Type} (ltb : α → α → Bool)
    (anti : ∀ a b, ltb a b = false → ltb b a = false → a = b) :
    ∀ x y, lexLt ltb x y = false → lexLt ltb y x = false → x = y
  | [], [], _, _ => rfl
  | [], _ :: _, h, _ => by simp [lexLt] at h
  | _ :: _, [], _, h => by simp [lexLt] at h
  | a :: as, b :: bs, h1, h2 => by
    simp only [lexLt] at h1 h2
    cases hab : ltb a b with
    | true => simp [hab] at h1
    | false =>
      cases hba : ltb b a with
      | true => simp [hab, hba] at h2
      | false =>
        simp only [hab, hba, if_false, Bool.false_eq_true] at h1 h2
        have heq : a = b := anti a b hab hba
        have hrest : as = bs := lexLt_antisymm ltb anti as bs h1 h2
        rw [heq, hrest]

theorem lexLt_cross {α : Type} (ltb : α → α → Bool)
    (anti : ∀ a b, ltb a b = false → ltb b a = false → a = b)
    (cross : ∀ a b c, ltb c a = true → ltb b a = false → ltb c b = true) :
    ∀ c a b, lexLt ltb c a = true → lexLt ltb b a = false → lexLt ltb c b = true := by
  intro c
  induction c with
  | nil =>
    intro a b h1 h2
    match a, b with
    | [], _ => simp [lexLt] at h1
    | _ :: _, [] => simp [lexLt] at h2
    | _ :: _, _ :: _ => simp [lexLt]
  | cons cc cs ih =>
    intro a b h1 h2
    match a, b with
    | [], _ => simp [lexLt] at h1
    | _ :: _, [] => simp [lexLt] at h2
    | aa :: as, bb :: bs =>
      simp only [lexLt] at h1 h2 ⊢
      cases hca : ltb cc aa with
      | true =>
        have hba : ltb bb aa = false := by
          cases hx : ltb bb aa with
          | true => simp [hx] at h2
          | false => rfl
        have hcb : ltb cc bb = true := cross aa bb cc hca hba
        simp [hcb]
      | false =>
        cases hac : ltb aa cc with
        | true => simp [hca, hac] at h1
        | false =>
          have hceq : cc = aa := anti cc aa hca hac
          subst hceq
          simp only [hca, hac, if_false, Bool.false_eq_true] at h1
          cases hbc : ltb bb cc with
          | true => simp [hbc] at h2
          | false =>
            cases hcb : ltb cc bb with
            | true => simp [hcb]
            | false =>
              have hbeq : bb = cc := anti bb cc hbc hcb
              subst hbeq
              simp only [hbc, hcb, if_false, Bool.false_eq_true] at h2 ⊢
              exact ih as bs h1 h2

theorem lexLt_iff_listLt {α : Type} [LT α] (ltb : α → α → Bool)
    (hiff : ∀ a b, ltb a b = true ↔ a < b) :
    ∀ x y : List α, lexLt ltb x y = true ↔ List.lt x y
  | [], [] => ⟨fun h => by simp [lexLt] at h, fun h => by cases h⟩
  | [], b :: bs => ⟨fun _ => List.lt.nil b bs, fun _ => rfl⟩
  | _ :: _, [] => ⟨fun h => by simp [lexLt] at h, fun h => by cases h⟩
  | a :: as, b :: bs => by
    by_cases hab : ltb a b = true
    · have he : lexLt ltb (a :: as) (b :: bs) = true := by simp [lexLt, hab]
      exact iff_of_true he (List.lt.head as bs ((hiff a b).mp hab))
    · by_cases hba : ltb b a = true
      · simp only [lexLt, if_neg hab, if_pos hba]
        constructor
        · intro h; exact absurd h (by simp)
        · intro h
          cases h with
          | head _ _ h1 => exact absurd ((hiff a b).mpr h1) hab
          | tail h1 h2 h3 => exact absurd ((hiff b a).mp hba) h2
      · simp only [lexLt, if_neg hab, if_neg hba]
        constructor
        · intro h
          exact List.lt.tail (fun hl => hab ((hiff a b).mpr hl))
            (fun hl => hba ((hiff b a).mpr hl))
            ((lexLt_iff_listLt ltb hiff as bs).mp h)
        · intro h
          cases h with
          | head _ _ h1 => exact absurd ((hiff a b).mpr h1) hab
          | tail h1 h2 h3 => exact (lexLt_iff_listLt ltb hiff as bs).mpr h3

theorem strLt_asymm (a b : String) (h : strLt a b = true) : strLt b a = false :=
  lexLt_asymm charLtB charLtB_asymm a.toList b.toList h

theorem strLt_antisymm (a b : String) (h1 : strLt a b = false) (h2 : strLt b a = false) :
    a = b := by
  have h := lexLt_antisymm charLtB charLtB_antisymm a.toList b.toList h1 h2
  cases a; cases b
  exact congrArg String.mk h

theorem strLt_cross (a b c : String) (h1 : strLt c a = true) (h2 : strLt b a = false) :
    strLt c b = true :=
  lexLt_cross charLtB charLtB_antisymm charLtB_cross c.toList a.toList b.toList h1 h2

theorem strLt_iff_listLt (a b : String) : strLt a b = true ↔ List.lt a.toList b.toList :=
  lexLt_iff_listLt charLtB (fun x y => by simp [charLtB]) a.toList b.toList

theorem strLt_eq_false_iff (a b : String) : strLt b a = false ↔ ¬ List.lt b.toList a.toList := by
  constructor
  · intro h hl
    rw [← strLt_iff_listLt] at hl
    simp [h] at hl
  · intro h
    cases hs : strLt b a with
    | true => exact absurd ((strLt_iff_listLt b a).mp hs) h
    | false => rfl

theorem pyInsert_perm (ltb : α → α → Bool) (a : α) :
    ∀ l : List α, (pyInsert ltb a l).Perm (a :: l)
  | [] => List.Perm.refl _
  | b :: bs => by
    simp only [pyInsert]
    cases h : ltb b a with
    | true =>
      simp only [if_pos rfl]
      exact ((pyInsert_perm ltb a bs).cons b).trans (List.Perm.swap a b bs)
    | false => simp

theorem pySorted_perm (ltb : α → α → Bool) : ∀ l : List α, (pySorted ltb l).Perm l
  | [] => List.Perm.refl _
  | a :: as =>
    (pyInsert_perm ltb a (pySorted ltb as)).trans ((pySorted_perm ltb as).cons a)

theorem mem_pyInsert (ltb : α → α → Bool) (a x : α) (l : List α) :
    x ∈ pyInsert ltb a l ↔ x = a ∨ x ∈ l := by
  rw [(pyInsert_perm ltb a l).mem_iff]
  simp

theorem pyInsert_pairwise (ltb : α → α → Bool)
    (asym : ∀ a b, ltb a b = true → ltb b a = false)
    (cross : ∀ a b c, ltb c a = true → ltb b a = false → ltb c b = true)
    (a : α) : ∀ l : List α, l.Pairwise (fun x y => ltb y x = false) →
      (pyInsert ltb a l).Pairwise (fun x y => ltb y x = false)
  | [], _ => List.pairwise_singleton _ a
  | b :: bs, hl => by
    rw [List.pairwise_cons] at hl
    cases h : ltb b a with
    | true =>
      have he : pyInsert ltb a (b :: bs) = b :: pyInsert ltb a bs := by
        simp [pyInsert, h]
      rw [he, List.pairwise_cons]
      constructor
      · intro x hx
        rcases (mem_pyInsert ltb a x bs).mp hx with hxa | hxb
        · subst hxa; exact asym b x h
        · exact hl.1 x hxb
      · exact pyInsert_pairwise ltb asym cross a bs hl.2
    | false =>
      have he : pyInsert ltb a (b :: bs) = a :: b :: bs := by
        simp [pyInsert, h]
      rw [he, List.pairwise_cons]
      constructor
      · intro x hx
        rcases List.mem_cons.mp hx with hxb | hxbs
        · subst hxb; exact h
        · cases hxa : ltb x a with
          | true =>
            have hxb : ltb x b = true := cross a b x hxa h
            rw [hl.1 x hxbs] at hxb
            exact absurd hxb (by simp)
          | false => rfl
      · exact List.pairwise_cons.mpr hl

theorem pySorted_pairwise (ltb : α → α → Bool)
    (asym : ∀ a b, ltb a b = true → ltb b a = false)
    (cross : ∀ a b c, ltb c a = true → ltb b a = false → ltb c b = true) :
    ∀ l : List α, (pySorted ltb l).Pairwise (fun x y => ltb y x = false)
  | [] => List.Pairwise.nil
  | a :: as => pyInsert_pairwise ltb asym cross a _ (pySorted_pairwise ltb asym cross as)

theorem pyInsert_of_all_false (ltb : α → α → Bool) (a : α) :
    ∀ l : List α, (∀ x ∈ l, ltb x a = false) → pyInsert ltb a l = a :: l
  | [], _ => rfl
  | b :: bs, h => by
    have hb : ltb b a = false := h b (List.mem_cons_self b bs)
    simp [pyInsert, hb]

theorem pyInsert_append_of_all_true (ltb : α → α → Bool) (a : α) :
    ∀ A B : List α, (∀ x ∈ A, ltb x a = true) →
      pyInsert ltb a (A ++ B) = A ++ pyInsert ltb a B
  | [], _, _ => rfl
  | x :: xs, B, h => by
    have hx : ltb x a = true := h x (List.mem_cons_self x xs)
    have ih := pyInsert_append_of_all_true ltb a xs B
      (fun y hy => h y (List.mem_cons_of_mem x hy))
    simp [pyInsert, hx, ih]

theorem reqLt_eq_false_of_req (p x : CmdParam) (hp : p.req = true) : reqLt x p = false := by
  unfold reqLt reqKey
  rw [hp]
  cases hx : x.req <;> simp

theorem reqLt_of_req_lt (p x : CmdParam) (hp : p.req = false) (hx : x.req = true) :
    reqLt x p = true := by
  unfold reqLt reqKey
  rw [hp, hx]
  simp

theorem reqLt_eq_false_of_not_req (p x : CmdParam) (hp : p.req = false) (hx : x.req = false) :
    reqLt x p = false := by
  unfold reqLt reqKey
  rw [hp, hx]
  simp

theorem pySorted_reqLt_partition :
    ∀ l : List CmdParam,
      pySorted reqLt l = l.filter (fun p => p.req) ++ l.filter (fun p => !p.req)
  | [] => rfl
  | p :: ps => by
    have ih := pySorted_reqLt_partition ps
    simp only [pySorted, ih]
    cases hr : p.req with
    | true =>
      rw [pyInsert_of_all_false reqLt p _ (fun x _ => reqLt_eq_false_of_req p x hr)]
      simp [List.filter_cons, hr]
    | false =>
      have htrue : ∀ x ∈ ps.filter (fun q => q.req), reqLt x p = true := by
        intro x hx
        rw [List.mem_filter] at hx
        exact reqLt_of_req_lt p x hr hx.2
      have hfalse : ∀ x ∈ ps.filter (fun q => !q.req), reqLt x p = false := by
        intro x hx
        rw [List.mem_filter] at hx
        exact reqLt_eq_false_of_not_req p x hr (by simpa using hx.2)
      rw [pyInsert_append_of_all_true reqLt p _ _ htrue,
        pyInsert_of_all_false reqLt p _ hfalse]
      simp [List.filter_cons, hr]

theorem flags_names_eq (mask : Nat) :
    Flags.names ⟨mask⟩ =
      namesOfBits (mask &&& 1 == 1) (mask &&& 2 == 2) (mask &&& 4 == 4)
        (mask &&& 8 == 8) (mask &&& 16 == 16) (mask &&& 32 == 32) := by
  simp only [Flags.names, Flags.VALS, namesOfBits, List.filter_cons, List.filter_nil]
  cases mask &&& 1 == 1 <;> cases mask &&& 2 == 2 <;> cases mask &&& 4 == 4 <;>
    cases mask &&& 8 == 8 <;> cases mask &&& 16 == 16 <;> cases mask &&& 32 == 32 <;> rfl

theorem strContains_namesOfBits :
    ∀ b1 b2 b3 b4 b5 b6 : Bool,
      strContains (String.intercalate ", "
        (pySorted strLt (namesOfBits b1 b2 b3 b4 b5 b6))) "no_forward" = b1 ∧
      strContains (String.intercalate ", "
        (pySorted strLt (namesOfBits b1 b2 b3 b4 b5 b6))) "obsolete" = b2 ∧
      strContains (String.intercalate ", "
        (pySorted strLt (namesOfBits b1 b2 b3 b4 b5 b6))) "deprecated" = b3 ∧
      strContains (String.intercalate ", "
        (pySorted strLt (namesOfBits b1 b2 b3 b4 b5 b6))) "mgr" = b4 ∧
      strContains (String.intercalate ", "
        (pySorted strLt (namesOfBits b1 b2 b3 b4 b5 b6))) "poll" = b5 ∧
      strContains (String.intercalate ", "
        (pySorted strLt (namesOfBits b1 b2 b3 b4 b5 b6))) "hidden" = b6 := by
  decide

theorem cmdSigLt_asymm (a b : CmdCommand) (h : cmdSigLt a b = true) : cmdSigLt b a = false :=
  lexLt_asymm strLt strLt_asymm a.sig b.sig h

theorem cmdSigLt_cross (a b c : CmdCommand) (h1 : cmdSigLt c a = true)
    (h2 : cmdSigLt b a = false) : cmdSigLt c b = true :=
  lexLt_cross strLt strLt_antisymm strLt_cross c.sig a.sig b.sig h1 h2

/-- Claim C5: for every command, is_reasonably_simple() returns false if
and only if the parameter count exceeds 3 or at least one parameter is
marked repeatable. -/
theorem is_reasonably_simple_iff (c : CmdCommand) :
    c.is_reasonably_simple = false ↔
      3 < c.params.length ∨ ∃ p ∈ c.params, p.n = true := by
  unfold CmdCommand.is_reasonably_simple
  split_ifs with h1 h2
  · exact iff_of_true rfl (Or.inl h1)
  · refine iff_of_true rfl (Or.inr ?_)
    simpa using List.any_eq_true.mp h2
  · refine iff_of_false (by simp) ?_
    rintro (h | h)
    · exact h1 h
    · refine h2 (List.any_eq_true.mpr ?_)
      simpa using h

/-- Claim C7: constructing a Parameter from a descriptor whose "who"
attribute is present fails hard; with the attribute absent construction
succeeds, so the failure branch is unreachable under that precondition. -/
theorem cmdparam_init_who_spec (r : RawParam) :
    (r.who ≠ none → CmdParam.init r = none) ∧
    (r.who = none → ∃ p : CmdParam, CmdParam.init r = some p) := by
  constructor
  · intro h
    unfold CmdParam.init
    rw [if_pos h]
  · intro h
    unfold CmdParam.init
    rw [if_neg (fun hne => hne h)]
    exact ⟨_, rfl⟩

/-- Witness for C7 at two concrete descriptors: a present "who" attribute
fails, an absent one succeeds. -/
theorem cmdparam_init_who_spec_witness :
    CmdParam.init { type := "CephString", name := "x", who := some "mon" } = none ∧
    ∃ p : CmdParam, CmdParam.init { type := "CephString", name := "x" } = some p :=
  ⟨(cmdparam_init_who_spec { type := "CephString", name := "x", who := some "mon" }).1
      (by decide),
   (cmdparam_init_who_spec { type := "CephString", name := "x" }).2 rfl⟩

/-- Claim C9: a constructed parameter is optional exactly when the raw
req field of the raw descriptor is the string "false"; any other value, absence
included, makes it required. -/
theorem req_optional_iff (r : RawParam) (p : CmdParam) (h : CmdParam.init r = some p) :
    (p.req = false ↔ r.req = some "false") := by
  unfold CmdParam.init at h
  by_cases hw : r.who ≠ none
  · rw [if_pos hw] at h
    exact absurd h (by simp)
  · rw [if_neg hw] at h
    have hp := Option.some.inj h
    rw [← hp]
    show (r.req != some "false") = false ↔ r.req = some "false"
    simp [bne]

/-- Witness for C9: the optional fixture parameter arises from a
descriptor with req = "false". -/
theorem req_optional_iff_witness :
    wOptParam.req = false ↔
      ({ type := "CephString", name := "a", req := some "false" } : RawParam).req =
        some "false" :=
  req_optional_iff { type := "CephString", name := "a", req := some "false" } wOptParam
    (by decide)

/-- Claim C3: mk_example_value() returns the first entry of the allowed
value set for a choice-string with a value set; otherwise the first entry
of the range when a range exists; otherwise the canonical example
literal from the fixed lookup table (e.g. CephInt gives "1", CephIPAddr
gives "0.0.0.0", CephBool gives "true"). -/
theorem mk_example_value_spec (p : CmdParam) :
    (p.type = "CephChoices" ∧ p.strings ≠ [] →
      p.mk_example_value = p.strings.head?) ∧
    (¬(p.type = "CephChoices" ∧ p.strings ≠ []) → p.range ≠ [] →
      p.mk_example_value = p.range.head?) ∧
    (¬(p.type = "CephChoices" ∧ p.strings ≠ []) → p.range = [] →
      p.mk_example_value = CmdParam.bash_example p.type) ∧
    CmdParam.bash_example "CephInt" = some "1" ∧
    CmdParam.bash_example "CephIPAddr" = some "0.0.0.0" ∧
    CmdParam.bash_example "CephBool" = some "true" := by
  refine ⟨?_, ?_, ?_, rfl, rfl, rfl⟩
  · intro h
    unfold CmdParam.mk_example_value
    rw [if_pos h]
  · intro h1 h2
    unfold CmdParam.mk_example_value
    rw [if_neg h1, if_pos h2]
  · intro h1 h2
    unfold CmdParam.mk_example_value
    rw [if_neg h1, if_neg (fun hne => hne h2)]

/-- Witness for C3 at three concrete parameters: a choice set, a range,
and a bare integer type. -/
theorem mk_example_value_spec_witness :
    wChoiceParam.mk_example_value = wChoiceParam.strings.head? ∧
    wRangeParam.mk_example_value = wRangeParam.range.head? ∧
    wIntParam.mk_example_value = CmdParam.bash_example wIntParam.type :=
  ⟨(mk_example_value_spec wChoiceParam).1 (by decide),
   (mk_example_value_spec wRangeParam).2.1 (by decide) (by decide),
   (mk_example_value_spec wIntParam).2.2.1 (by decide) (by decide)⟩

/-- Claim C4: mk_bash_example(simple) renders a CephBool parameter as the
bare flag `--name` regardless of `simple`; with `simple` set it renders
the first allowed value unprefixed for a choice-string with a value set,
`my_<name>` for a CephString not named "who", and the canonical example
literal of the type otherwise; with `simple` unset it renders
`--<name>=<mk_example_value()>`.  In particular the descriptor
{type: CephChoices, name: format, strings: "json|plain"} renders "json"
when simple and "--format=json" when not. -/
theorem mk_bash_example_spec :
    (∀ (p : CmdParam) (simple : Bool), p.type = "CephBool" →
      p.mk_bash_example simple = some ("--" ++ p.name)) ∧
    (∀ p : CmdParam, p.type = "CephChoices" → p.strings ≠ [] →
      p.mk_bash_example true = p.strings.head?) ∧
    (∀ p : CmdParam, p.type = "CephString" → p.name ≠ "who" →
      p.mk_bash_example true = some ("my_" ++ p.name)) ∧
    (∀ p : CmdParam, p.type ≠ "CephBool" → ¬(p.type = "CephChoices" ∧ p.strings ≠ []) →
      ¬(p.type = "CephString" ∧ p.name ≠ "who") →
      p.mk_bash_example true = CmdParam.bash_example p.type) ∧
    (∀ p : CmdParam, p.type ≠ "CephBool" →
      p.mk_bash_example false = p.mk_example_value.map fun v => "--" ++ p.name ++ "=" ++ v) ∧
    (∀ p : CmdParam,
      CmdParam.init { type := "CephChoices", name := "format", strings := some "json|plain" } =
        some p →
      p.mk_bash_example true = some "json" ∧ p.mk_bash_example false = some "--format=json") := by
  refine ⟨?_, ?_, ?_, ?_, ?_, ?_⟩
  · intro p simple ht
    unfold CmdParam.mk_bash_example CmdParam.mk_example_value
    rw [ht]
    cases hr : p.range with
    | nil => rfl
    | cons r rs => simp
  · intro p ht hs
    cases hstr : p.strings with
    | nil => exact absurd hstr hs
    | cons s0 tl =>
      unfold CmdParam.mk_bash_example CmdParam.mk_example_value
      rw [ht, hstr]
      simp
  · intro p ht hn
    unfold CmdParam.mk_bash_example CmdParam.mk_example_value
    rw [ht]
    cases hr : p.range with
    | nil =>
      simp [hn]
      rfl
    | cons r rs => simp [hn]
  · intro p hb hc hsw
    unfold CmdParam.mk_bash_example
    cases hv : p.mk_example_value with
    | none =>
      unfold CmdParam.mk_example_value at hv
      rw [if_neg hc] at hv
      by_cases hr : p.range ≠ []
      · rw [if_pos hr] at hv
        cases hrl : p.range with
        | nil => exact absurd hrl hr
        | cons r rs => rw [hrl] at hv; simp at hv
      · rw [if_neg hr] at hv
        simp [hv]
    | some v =>
      simp only [Option.some_bind]
      rw [if_neg hb, if_pos (by trivial), if_neg hc, if_neg hsw]
  · intro p hb
    unfold CmdParam.mk_bash_example
    cases hv : p.mk_example_value with
    | none => simp
    | some v => simp [hb]
  · intro p hp
    have h0 : CmdParam.init
        { type := "CephChoices", name := "format", strings := some "json|plain" } =
        some { type := "CephChoices", name := "format", who := none, n := false, req := true,
               range := [], strings := ["json", "plain"], goodchars := none } := by decide
    rw [h0] at hp
    have hpe := Option.some.inj hp
    rw [← hpe]
    exact ⟨by decide, by decide⟩

/-- Witness for C4: the CephBool fixture renders as a bare flag, and the
concrete choice descriptor renders "json" and "--format=json". -/
theorem mk_bash_example_spec_witness :
    wBoolParam.mk_bash_example true = some ("--" ++ wBoolParam.name) ∧
    (wChoiceParam.mk_bash_example true = some "json" ∧
     wChoiceParam.mk_bash_example false = some "--format=json") :=
  ⟨mk_bash_example_spec.1 wBoolParam true rfl,
   mk_bash_example_spec.2.2.2.2.2 wChoiceParam (by decide)⟩

/-- Claim C1: every command whose Flag Set reports "hidden" present is
discarded by the selection pipeline: no member of the command sequence
handed to the renderer reports "hidden", whatever its other fields
(including masks that OR the hidden bit with other bits). -/
theorem hidden_never_rendered (manifest : List RawCommand) (l : List CmdCommand)
    (h : mk_sigs manifest = some l) (c : CmdCommand) (hc : c ∈ l) :
    Flags.contains c.flags "hidden" = false := by
  unfold mk_sigs at h
  cases hm : manifest.mapM CmdCommand.init with
  | none =>
    rw [hm] at h
    exact absurd h (by simp)
  | some cs =>
    rw [hm] at h
    have hl : l = pySorted cmdSigLt (cs.filter fun s => !(Flags.contains s.flags "hidden")) :=
      (Option.some.inj h).symm
    subst hl
    have hmem := (pySorted_perm cmdSigLt _).mem_iff.mp hc
    rw [List.mem_filter] at hmem
    simpa using hmem.2

/-- Witness for C1: in a two-command manifest whose first command carries
mask 36 (hidden OR deprecated), the rendered sequence is the plain
command alone, and it does not report "hidden". -/
theorem hidden_never_rendered_witness :
    Flags.contains wPlainCmd.flags "hidden" = false :=
  hidden_never_rendered [wHiddenRaw, wPlainRaw] [wPlainCmd] (by decide) wPlainCmd
    (List.mem_singleton.mpr rfl)

/-- Claim C2: the stored parameter list of a constructed command is the
required parameters followed by the optional ones, each group in its
original signature order (the stable descending sort on the required
marker). -/
theorem params_required_first (r : RawCommand) (c : CmdCommand) (ps : List CmdParam)
    (hps : (r.sig.filterMap SigItem.paramOf).mapM CmdParam.init = some ps)
    (hc : CmdCommand.init r = some c) :
    c.params = ps.filter (fun p => p.req) ++ ps.filter (fun p => !p.req) := by
  unfold CmdCommand.init at hc
  rw [hps] at hc
  have he := Option.some.inj hc
  rw [← he]
  exact pySorted_reqLt_partition ps

/-- Witness for C2: the mixed fixture command, whose signature lists an
optional parameter before a required one, stores the required one first. -/
theorem params_required_first_witness :
    wMixedCmd.params =
      [wOptParam, wReqParam].filter (fun p => p.req) ++
      [wOptParam, wReqParam].filter (fun p => !p.req) :=
  params_required_first wMixedRaw wMixedCmd [wOptParam, wReqParam] (by decide) (by decide)

/-- Claim C8: the surviving (non-hidden) commands are handed to the
renderer sorted by their literal-token signature lists, lexicographically
(no later signature compares strictly below an earlier one), and the
sequence is exactly a reordering of the surviving set; as a function of
the manifest the order is deterministic. -/
theorem mk_sigs_sorted_perm (manifest : List RawCommand) (cs l : List CmdCommand)
    (hcs : manifest.mapM CmdCommand.init = some cs)
    (h : mk_sigs manifest = some l) :
    l.Pairwise (fun a b => lexLt strLt b.sig a.sig = false) ∧
    l.Perm (cs.filter fun s => !(Flags.contains s.flags "hidden")) := by
  unfold mk_sigs at h
  rw [hcs] at h
  have hl : l = pySorted cmdSigLt (cs.filter fun s => !(Flags.contains s.flags "hidden")) :=
    (Option.some.inj h).symm
  subst hl
  constructor
  · exact pySorted_pairwise cmdSigLt cmdSigLt_asymm cmdSigLt_cross _
  · exact pySorted_perm _ _

/-- Witness for C8: a manifest listing signature "b" before "a" is
rendered as "a" then "b", a permutation of the surviving set. -/
theorem mk_sigs_sorted_perm_witness :
    ([wCmdA, wCmdB].Pairwise (fun a b => lexLt strLt b.sig a.sig = false)) ∧
    ([wCmdA, wCmdB].Perm ([wCmdB, wCmdA].filter fun s => !(Flags.contains s.flags "hidden"))) :=
  mk_sigs_sorted_perm [wRawB, wRawA] [wCmdB, wCmdA] [wCmdA, wCmdB] (by decide) (by decide)

/-- Claim C6: for every integer mask the Flag Set text is the comma-joined,
alphabetically sorted list of exactly those canonical names whose bit is
fully contained in the mask (mask AND bit equals bit); bits outside the
enumeration are ignored and every mask is legal (Flags.str is total).
Sortedness is stated as: no later name is lexicographically below an
earlier one (code-point order, the order Python sorts strings by). -/
theorem flags_str_spec (mask : Nat) :
    ∃ names : List String,
      Flags.str ⟨mask⟩ = String.intercalate ", " names ∧
      names.Pairwise (fun a b => ¬ List.lt b.toList a.toList) ∧
      ∀ nm : String, nm ∈ names ↔ ∃ k : Nat, (k, nm) ∈ Flags.VALS ∧ mask &&& k = k := by
  refine ⟨pySorted strLt (Flags.names ⟨mask⟩), rfl, ?_, ?_⟩
  · have hp := pySorted_pairwise strLt strLt_asymm strLt_cross (Flags.names ⟨mask⟩)
    exact hp.imp fun h => (strLt_eq_false_iff _ _).mp h
  · intro nm
    rw [(pySorted_perm strLt (Flags.names ⟨mask⟩)).mem_iff]
    simp only [Flags.names, List.mem_map, List.mem_filter]
    constructor
    · rintro ⟨⟨k, n⟩, ⟨hmem, hbit⟩, rfl⟩
      exact ⟨k, hmem, by simpa using hbit⟩
    · rintro ⟨k, hmem, hbit⟩
      exact ⟨(k, nm), ⟨hmem, by simpa using hbit⟩, rfl⟩

/-- Claim C10: for every mask and every canonical flag name, the
substring-containment membership test on the rendered Flag Set text
answers true exactly when the bit of that name is fully set in the mask, so
over the current closed name set the substring test coincides with exact
set membership. -/
theorem flags_contains_iff_bit (mask k : Nat) (nm : String) (h : (k, nm) ∈ Flags.VALS) :
    (Flags.contains ⟨mask⟩ nm = true) ↔ mask &&& k = k := by
  have hs : ∀ q : String, Flags.contains ⟨mask⟩ q =
      strContains (String.intercalate ", "
        (pySorted strLt (namesOfBits (mask &&& 1 == 1) (mask &&& 2 == 2) (mask &&& 4 == 4)
          (mask &&& 8 == 8) (mask &&& 16 == 16) (mask &&& 32 == 32)))) q := by
    intro q
    simp only [Flags.contains, Flags.str, flags_names_eq]
  have hc := strContains_namesOfBits (mask &&& 1 == 1) (mask &&& 2 == 2) (mask &&& 4 == 4)
    (mask &&& 8 == 8) (mask &&& 16 == 16) (mask &&& 32 == 32)
  simp only [Flags.VALS, List.mem_cons, List.not_mem_nil, or_false, Prod.mk.injEq] at h
  rcases h with ⟨hk, hn⟩ | ⟨hk, hn⟩ | ⟨hk, hn⟩ | ⟨hk, hn⟩ | ⟨hk, hn⟩ | ⟨hk, hn⟩ <;>
    subst hk <;> subst hn <;> rw [hs]
  · rw [hc.1]; exact beq_iff_eq
  · rw [hc.2.1]; exact beq_iff_eq
  · rw [hc.2.2.1]; exact beq_iff_eq
  · rw [hc.2.2.2.1]; exact beq_iff_eq
  · rw [hc.2.2.2.2.1]; exact beq_iff_eq
  · rw [hc.2.2.2.2.2]; exact beq_iff_eq

/-- Witness for C10 at the mask 36 (hidden OR deprecated) and the name
"hidden", whose bit 32 is fully contained in the mask. -/
theorem flags_contains_iff_bit_witness :
    (32, "hidden") ∈ Flags.VALS ∧
    ((Flags.contains ⟨36⟩ "hidden" = true) ↔ 36 &&& 32 = 32) :=
  ⟨by decide, flags_contains_iff_bit 36 32 "hidden" (by decide)⟩

/-- Witness for C5 at the parameterless plain command fixture. -/
theorem is_reasonably_simple_iff_witness :
    wPlainCmd.is_reasonably_simple = false ↔
      3 < wPlainCmd.params.length ∨ ∃ p ∈ wPlainCmd.params, p.n = true :=
  is_reasonably_simple_iff wPlainCmd

/-- Witness for C6 at the mask 36 (hidden OR deprecated). -/
theorem flags_str_spec_witness :
    ∃ names : List String,
      Flags.str ⟨36⟩ = String.intercalate ", " names ∧
      names.Pairwise (fun a b => ¬ List.lt b.toList a.toList) ∧
      ∀ nm : String, nm ∈ names ↔ ∃ k : Nat, (k, nm) ∈ Flags.VALS ∧ 36 &&& k = k :=
  flags_str_spec 36
